import Mathlib

set_option autoImplicit false

namespace Gaba

/-! Shallow embedding of the gaba asset-detection core:
`AssetsDetectionController` (token pass, collectible pass, scheduler),
`ComposableController` (state composer) and
`TokenBalancesController.updateBalances`.  Store mutations are embedded as
explicit operation traces (`StoreOp`); external fetches are parameters so a
cycle can be evaluated on any fetch outcome. -/

/-- Modelled from the spec: `toChecksumAddress` comes from the external
`ethereumjs-util` package, outside this repository.  The spec's glossary
describes a checksum address as the "case-encoded canonical form of an address
used for case-insensitive identity comparison": the output is a fixed
re-casing determined only by the case-insensitive identity of the input.  We
model the canonical re-casing as uppercasing the lowercased input; every claim
below depends only on (a) two casings of one address mapping to the same
output and (b) the output being a definite casing that an arbitrarily cased
stored string need not equal. -/
def toChecksumAddress (s : String) : String :=
  String.mk ((s.data.map Char.toLower).map Char.toUpper)

/-- Model of the JavaScript `key in array` test used at
`detectTokens` (`!(address in tokensAddresses)`): it is property lookup on an
array, true exactly for canonical numeric index strings below the length (we
omit `length` and prototype properties, which no `0x…` contract address can
collide with). -/
def jsArrayIndexKey (len : Nat) (key : String) : Bool :=
  match key.data with
  | [] => false
  | c :: rest =>
    (c :: rest).all Char.isDigit
      && !(c == '0' && !rest.isEmpty)
      && decide ((c :: rest).foldl (fun n ch => 10 * n + (ch.toNat - 48)) 0 < len)

/-- Model of JavaScript `Number(tokenId)` on the token-id strings of the
marketplace response: a decimal integer string parses exactly (every id in
this development is far below 2^53), anything non-numeric yields NaN,
modelled as `none`. -/
def jsNumber (s : String) : Option Int :=
  if s.data.isEmpty || !(s.data.all Char.isDigit) then none
  else some (Int.ofNat (s.data.foldl (fun n c => 10 * n + (c.toNat - 48)) 0))

/-- Model of JavaScript `===` between a stored numeric token id and a
`Number(...)` result: NaN (`none`) is equal to nothing. -/
def jsNumEq (m : Int) (n : Option Int) : Bool :=
  match n with
  | some k => decide (m = k)
  | none => false

/-- Token record (`TokenRatesController.Token`): tokens staged by detection
carry address/symbol/decimals; `balanceError` is the field mutated by
`TokenBalancesController.updateBalances`. -/
structure Token where
  address : String
  symbol : String := ""
  decimals : Nat := 0
  balanceError : Option String := none
deriving DecidableEq

/-- Entry of the static `@metamask/contract-metadata` registry: external data
loaded once, passed as an explicit parameter. -/
structure ContractEntry where
  erc20 : Bool
  symbol : String
  decimals : Nat
deriving DecidableEq

/-- Collectible record as used by the detection comparisons and by
`removeCollectible`: identified by contract address and numeric token id. -/
structure Collectible where
  address : String
  tokenId : Int
deriving DecidableEq

/-- Collectible metadata forwarded to `addCollectible`. -/
structure CollectibleInformation where
  description : String
  image : String
  name : String
deriving DecidableEq

/-- One item of the marketplace (OpenSea) response; `address` stands for the
nested `asset_contract.address` field. -/
structure ApiCollectibleResponse where
  token_id : String
  image_original_url : String
  name : String
  description : String
  address : String
deriving DecidableEq

/-- Configuration slice of `AssetsDetectionController` read by a cycle,
together with the `disabled` flag of the base controller. -/
structure DetectConfig where
  networkType : String
  disabled : Bool
  selectedAddress : String
  tokens : List Token
deriving DecidableEq

/-- Embedding of `isMainnet`: false when the network is not mainnet or the
controller is disabled. -/
def isMainnet (config : DetectConfig) : Bool :=
  if !(config.networkType = "mainnet") || config.disabled then false else true

/-- Store mutation issued by a detection pass, recorded as a trace element in
program order. -/
inductive StoreOp where
  | addTokens (tokensToAdd : List Token)
  | addCollectible (address : String) (tokenId : Option Int)
      (info : CollectibleInformation) (detection : Bool)
  | removeCollectible (address : String) (tokenId : Int)
deriving DecidableEq

/-- Lookup `contractMap[key]` on the registry object. -/
def mapLookup (contractMap : List (String × ContractEntry)) (key : String) :
    Option ContractEntry :=
  (contractMap.find? (fun p => decide (p.1 = key))).map Prod.snd

/-- Embedding of the candidate computation of `detectTokens`:
`tokensAddresses` keeps config tokens with a truthy (nonempty) address, and a
registry address is pushed when its entry is flagged `erc20` and
`!(address in tokensAddresses)` holds — a JS array-index membership test, not
an address comparison. -/
def tokensToDetect (contractMap : List (String × ContractEntry))
    (tokens : List Token) : List String :=
  let tokensAddresses := tokens.filter (fun token => !(decide (token.address = "")))
  (contractMap.filter
    (fun p => p.2.erc20 && !(jsArrayIndexKey tokensAddresses.length p.1))).map Prod.fst

/-- Embedding of the staging loop of `detectTokens` over the fetched balance
object (iterated in key order).  For each key: consult the ignore list
(comparing each stored `token.address` with the checksummed key); when not
ignored, read `contractMap[tokenAddress].decimals/.symbol` — a key missing
from the registry makes that property access throw, aborting the whole
`safelyExecute` body, modelled by `none`.  This is one iteration of the
loop, folded below by `detectTokensToAdd`. -/
def detectTokensStep (contractMap : List (String × ContractEntry))
    (ignoredTokens : List Token) (acc : Option (List Token)) (p : String × Nat) :
    Option (List Token) :=
  match acc with
  | none => none
  | some ts =>
    let ignored : Option Token :=
      if ignoredTokens.length ≠ 0 then
        ignoredTokens.find? (fun token => decide (token.address = toChecksumAddress p.1))
      else none
    if ignored.isSome then some ts
    else
      match mapLookup contractMap p.1 with
      | none => none
      | some entry =>
        some (ts ++ [{ address := p.1, symbol := entry.symbol, decimals := entry.decimals }])

/-- Staging loop of `detectTokens` as a fold of `detectTokensStep` over the
balance keys, starting from no staged tokens. -/
def detectTokensToAdd (contractMap : List (String × ContractEntry))
    (ignoredTokens : List Token) (balances : List (String × Nat)) :
    Option (List Token) :=
  balances.foldl (detectTokensStep contractMap ignoredTokens) (some [])

/-- Embedding of `detectTokens`: gate on `isMainnet`, compute candidates,
require a nonempty selected address, fetch balances in a single call (a
thrown fetch is swallowed by `safelyExecute`, yielding no ops), stage
additions, and issue one batched `addTokens` when anything was staged. -/
def detectTokens (contractMap : List (String × ContractEntry))
    (config : DetectConfig) (ignoredTokens : List Token)
    (getBalances : String → List String → Except String (List (String × Nat))) :
    List StoreOp :=
  if !(isMainnet config) then []
  else
    let toDetect := tokensToDetect contractMap config.tokens
    if config.selectedAddress = "" then []
    else
      match getBalances config.selectedAddress toDetect with
      | .error _ => []
      | .ok balances =>
        match detectTokensToAdd contractMap ignoredTokens balances with
        | none => []
        | some ts => if ts.length ≠ 0 then [StoreOp.addTokens ts] else []

/-- Outcome of the OpenSea request made by `getOwnerCollectibles`:
`fetchError` is `timeoutFetch` throwing (network/timeout), `parseError` is a
failure after the `try`/`catch` (e.g. `response.json()`), `ok` is a parsed
asset list. -/
inductive FetchOutcome where
  | fetchError
  | parseError
  | ok (assets : List ApiCollectibleResponse)
deriving DecidableEq

/-- Embedding of `getOwnerCollectibles`: the `catch` around `timeoutFetch`
returns `[]`, so a network/timeout failure is indistinguishable from an empty
owned list; a post-fetch parse failure propagates (`Except.error`). -/
def getOwnerCollectibles (fetch : FetchOutcome) :
    Except Unit (List ApiCollectibleResponse) :=
  match fetch with
  | .fetchError => .ok []
  | .parseError => .error ()
  | .ok assets => .ok assets

/-- Predicate of the `collectiblesToRemove.filter` callback in
`detectCollectibles`: the tracked collectible matches the reported item. -/
def collectibleMatches (api : ApiCollectibleResponse) (c : Collectible) : Bool :=
  jsNumEq c.tokenId (jsNumber api.token_id) && decide (c.address = toChecksumAddress api.address)

/-- Ignore-list probe of `detectCollectibles` on a raw reported address and a
`Number`-parsed token id, performed only when the ignored list is nonempty:
each stored entry is compared against the checksummed reported address and
the parsed id. -/
def collectibleIgnoredPair (ignoredCollectibles : List Collectible)
    (address : String) (tokenId : Option Int) : Option Collectible :=
  if ignoredCollectibles.length ≠ 0 then
    ignoredCollectibles.find? (fun c =>
      decide (c.address = toChecksumAddress address) && jsNumEq c.tokenId tokenId)
  else none

/-- Ignore-list probe applied to one reported marketplace item. -/
def collectibleIgnored (ignoredCollectibles : List Collectible)
    (api : ApiCollectibleResponse) : Option Collectible :=
  collectibleIgnoredPair ignoredCollectibles api.address (jsNumber api.token_id)

/-- Additions issued by the per-item callbacks of `detectCollectibles`: every
non-ignored reported item produces an `addCollectible` call with the raw
reported address, the `Number`-parsed id, the marketplace metadata and the
`detection = true` tag.  There is no tracked-membership test. -/
def collectibleAdds (ignoredCollectibles : List Collectible)
    (apiCollectibles : List ApiCollectibleResponse) : List StoreOp :=
  apiCollectibles.filterMap (fun api =>
    if (collectibleIgnored ignoredCollectibles api).isSome then none
    else some (StoreOp.addCollectible api.address (jsNumber api.token_id)
      { description := api.description, image := api.image_original_url, name := api.name } true))

/-- Removal-candidate set after the per-item callbacks: the snapshot of
tracked collectibles filtered by every reported item — the filter runs
unconditionally, outside the `if (!ignored)` branch. -/
def collectiblesToRemoveAfter (collectibles : List Collectible)
    (apiCollectibles : List ApiCollectibleResponse) : List Collectible :=
  apiCollectibles.foldl (fun acc api => acc.filter (fun c => !(collectibleMatches api c))) collectibles

/-- Embedding of `detectCollectibles` as its trace of store operations: gate
on `isMainnet` and a nonempty selected address; a parse failure is swallowed
by `safelyExecute` (no ops); otherwise all additions, then — after the
`Promise.all` barrier — one `removeCollectible` per remaining removal
candidate. -/
def detectCollectibles (config : DetectConfig)
    (collectibles ignoredCollectibles : List Collectible)
    (fetch : FetchOutcome) : List StoreOp :=
  if !(isMainnet config) then []
  else if config.selectedAddress = "" then []
  else
    match getOwnerCollectibles fetch with
    | .error _ => []
    | .ok apiCollectibles =>
      collectibleAdds ignoredCollectibles apiCollectibles
        ++ (collectiblesToRemoveAfter collectibles apiCollectibles).map
            (fun c => StoreOp.removeCollectible c.address c.tokenId)

/-- Scheduling-relevant action of `AssetsDetectionController`, in program
order. -/
inductive SchedAction where
  | clearTimer
  | detectCycle
  | armTimer (interval : Nat)
deriving DecidableEq

/-- Scheduler-relevant state of the controller: whether a timer handle is
pending, the configured interval, and the selected address. -/
structure SchedState where
  handle : Bool
  interval : Nat
  selectedAddress : String
deriving DecidableEq

/-- Embedding of `poll(interval?)`: configure the interval when the argument
is truthy (JS: `interval && this.configure(...)`, so `0` is ignored), clear
the pending timer when one exists, run one detection cycle
(`await this.detectAssets()`, which never rejects — both passes run under
`safelyExecute`), then unconditionally arm a new timer for the configured
interval. -/
def pollSched (s : SchedState) (intervalArg : Option Nat) :
    SchedState × List SchedAction :=
  let s1 :=
    match intervalArg with
    | some i => if i ≠ 0 then { s with interval := i } else s
    | none => s
  let clear := if s1.handle then [SchedAction.clearTimer] else []
  ({ s1 with handle := true },
    clear ++ [SchedAction.detectCycle, SchedAction.armTimer s1.interval])

/-- Embedding of the constructor's scheduling tail, `this.poll()` with no
argument. -/
def startSched (s : SchedState) : SchedState × List SchedAction :=
  pollSched s none

/-- Embedding of the `onPreferencesStateChange` listener installed by the
constructor: when the announced selected address differs from the configured
one, reconfigure and run `detectAssets()` — no timer is cleared and none is
armed. -/
def accountChangeSched (s : SchedState) (selectedAddress : String) :
    SchedState × List SchedAction :=
  if !(decide (selectedAddress = s.selectedAddress)) then
    ({ s with selectedAddress := selectedAddress }, [SchedAction.detectCycle])
  else (s, [])

/-- Child controller as seen by `ComposableController`: a `name` property and
a current state snapshot. -/
structure ChildController (σ : Type) where
  name : String
  state : σ

/-- JS object assignment `obj[key] = v` on an object modelled as an ordered
association list: overwrite the existing entry in place when the key exists,
else append (insertion order preserved, keys unique). -/
def objSet {α : Type} (obj : List (String × α)) (key : String) (v : α) :
    List (String × α) :=
  match obj with
  | [] => [(key, v)]
  | p :: rest => if p.1 = key then (key, v) :: rest else p :: objSet rest key v

/-- JS object property read `obj[key]`, `undefined` as `none`. -/
def jsLookup {α : Type} (obj : List (String × α)) (key : String) : Option α :=
  match obj with
  | [] => none
  | p :: rest => if p.1 = key then some p.2 else jsLookup rest key

/-- Embedding of the `ComposableController` constructor's initial composed
state: `Object.entries(controllers)` is applied to the controller ARRAY, so
it yields the index strings "0", "1", … as keys, and the reduce stores each
child's snapshot under its index string — not under its name. -/
def composableInitialState {σ : Type} (controllers : List (ChildController σ)) :
    List (String × σ) :=
  controllers.enum.foldl (fun st p => objSet st (toString p.1) p.2.state) []

/-- Embedding of the child-change subscription installed by the constructor:
`this.update({ [name]: state })` with `name` the child's `name` property.
Modelled from the spec for `BaseController.update` (the base class is not
under src/): per §4.6 the partial state object is merged into the composed
state, replacing exactly the given key. -/
def composableOnChildChange {σ : Type} (composed : List (String × σ))
    (name : String) (state : σ) : List (String × σ) :=
  objSet composed name state

/-- Embedding of the `flatState` getter: `Object.entries(this.controllers)`
on the array again yields index-string keys, so the "flat" representation is
keyed by index strings as well. -/
def flatState {σ : Type} (controllers : List (ChildController σ)) :
    List (String × σ) :=
  controllers.enum.foldl (fun st p => objSet st (toString p.1) p.2.state) []

/-- Embedding of `TokenBalancesController.updateBalances`: when disabled,
return without touching state (`none`); otherwise iterate the configured
tokens, record the fetched balance under the token's address (a throwing
fetch records balance `0` instead) and set the token's `balanceError` to
`null` on success or to the thrown error, then publish the new
`contractBalances` object.  This is one iteration of the loop; the whole
operation, returning the published balances object together with the mutated
token list, is `updateBalances` below. -/
def updateBalancesStep (getBalanceOfAssetContract : String → Except String Int)
    (acc : List (String × Int) × List Token) (token : Token) :
    List (String × Int) × List Token :=
  match getBalanceOfAssetContract token.address with
  | .ok balance =>
    (objSet acc.1 token.address balance, acc.2 ++ [{ token with balanceError := none }])
  | .error e =>
    (objSet acc.1 token.address 0, acc.2 ++ [{ token with balanceError := some e }])

/-- Loop of `updateBalances` over the configured tokens, starting from an
empty balances object. -/
def updateBalances (disabled : Bool) (tokens : List Token)
    (getBalanceOfAssetContract : String → Except String Int) :
    Option (List (String × Int) × List Token) :=
  if disabled then none
  else some (tokens.foldl (updateBalancesStep getBalanceOfAssetContract) ([], []))

/-- True exactly for `addCollectible` trace elements. -/
def StoreOp.isAdd : StoreOp → Bool
  | .addCollectible _ _ _ _ => true
  | _ => false

/-- True exactly for `removeCollectible` trace elements. -/
def StoreOp.isRemove : StoreOp → Bool
  | .removeCollectible _ _ => true
  | _ => false

/-- Modelled from the spec: `AssetsController.addTokens` (not under src/)
merges a record into the tracked-token list by address — replacing the entry
with the same address, appending otherwise — and deletes nothing (§3: a
Token is "never mutated except its error flag and balance; never deleted by
the engine"). -/
def storeAddToken (ts : List Token) (t : Token) : List Token :=
  if ts.any (fun u => decide (u.address = t.address)) then
    ts.map (fun u => if u.address = t.address then t else u)
  else ts ++ [t]

/-- Modelled from the spec: effect of a store-operation trace on the
tracked-token list.  `addTokens` merges its batch via `storeAddToken`; the
collectible mutators do not touch tokens, and no token-removal mutator
exists. -/
def applyTokenOp (ts : List Token) (op : StoreOp) : List Token :=
  match op with
  | StoreOp.addTokens tokensToAdd => tokensToAdd.foldl storeAddToken ts
  | _ => ts

/-- Effect of a whole store-operation trace on the tracked-token list. -/
def applyTokenOps (tracked : List Token) (ops : List StoreOp) : List Token :=
  ops.foldl applyTokenOp tracked

/-- Balance recorded by `updateBalances` for an address: the fetched value,
or `0` when the fetch throws. -/
def fetchedBalance (getBalance : String → Except String Int) (address : String) : Int :=
  match getBalance address with
  | .ok v => v
  | .error _ => 0

/-- Token record as mutated by `updateBalances`: `balanceError` is cleared on
a successful fetch and set to the thrown error otherwise. -/
def tokenAfterFetch (getBalance : String → Except String Int) (token : Token) : Token :=
  match getBalance token.address with
  | .ok _ => { token with balanceError := none }
  | .error e => { token with balanceError := some e }

/-- Shared concrete detection configuration: mainnet, enabled, with a
selected owner address. -/
def mainnetConfig : DetectConfig :=
  { networkType := "mainnet", disabled := false, selectedAddress := "0xowner", tokens := [] }

/-- Shared concrete marketplace item: contract reported in lower case as
`0xab`, token id string "5". -/
def apiAb5 : ApiCollectibleResponse :=
  { token_id := "5", image_original_url := "img", name := "Kitty",
    description := "desc", address := "0xab" }

/-- Tokens staged by the balance loop when iteration completes without a
registry miss: one per balance key that is not ignored, annotated from the
registry. -/
def stagedTokens (contractMap : List (String × ContractEntry))
    (ignoredTokens : List Token) (balances : List (String × Nat)) : List Token :=
  balances.filterMap (fun p =>
    if (ignoredTokens.find? (fun token => decide (token.address = toChecksumAddress p.1))).isSome
    then none
    else (mapLookup contractMap p.1).map (fun entry =>
      { address := p.1, symbol := entry.symbol, decimals := entry.decimals }))

/-! Helper lemmas shared by several claims. -/

theorem find_length_guard {β : Type} (l : List β) (q : β → Bool) :
    (if l.length ≠ 0 then l.find? q else none) = l.find? q := by
  cases l <;> simp

theorem jsLookup_objSet_self {α : Type} (obj : List (String × α)) (key : String) (v : α) :
    jsLookup (objSet obj key v) key = some v := by
  induction obj with
  | nil => simp [objSet, jsLookup]
  | cons p rest ih =>
    by_cases h : p.1 = key <;> simp [objSet, h, jsLookup, ih]

theorem jsLookup_objSet_ne {α : Type} (obj : List (String × α)) (key : String) (v : α)
    (a : String) (h : a ≠ key) :
    jsLookup (objSet obj key v) a = jsLookup obj a := by
  induction obj with
  | nil => simp [objSet, jsLookup, Ne.symm h]
  | cons p rest ih =>
    by_cases h2 : p.1 = key
    · simp [objSet, h2, jsLookup, Ne.symm h]
    · simp only [objSet, if_neg h2]
      by_cases h3 : p.1 = a <;> simp [jsLookup, h3, ih]

theorem objSet_keys {α : Type} (obj : List (String × α)) (key : String) (v : α) :
    (objSet obj key v).map Prod.fst
      = if key ∈ obj.map Prod.fst then obj.map Prod.fst else obj.map Prod.fst ++ [key] := by
  induction obj with
  | nil => simp [objSet]
  | cons p rest ih =>
    by_cases h : p.1 = key
    · simp [objSet, h]
    · simp only [objSet, if_neg h, List.map_cons, ih]
      by_cases h2 : key ∈ rest.map Prod.fst <;> simp [h2, Ne.symm h]

theorem objSet_keys_nodup {α : Type} (obj : List (String × α)) (key : String) (v : α)
    (h : (obj.map Prod.fst).Nodup) : ((objSet obj key v).map Prod.fst).Nodup := by
  rw [objSet_keys]
  by_cases h2 : key ∈ obj.map Prod.fst
  · simpa [h2] using h
  · simp only [if_neg h2, List.nodup_append]
    exact ⟨h, List.nodup_singleton key, by simpa using h2⟩

theorem mem_collectiblesToRemoveAfter (collectibles : List Collectible)
    (apis : List ApiCollectibleResponse) (c : Collectible) :
    c ∈ collectiblesToRemoveAfter collectibles apis ↔
      c ∈ collectibles ∧ ∀ api ∈ apis, collectibleMatches api c = false := by
  induction apis generalizing collectibles with
  | nil => simp [collectiblesToRemoveAfter]
  | cons api rest ih =>
    show c ∈ collectiblesToRemoveAfter
        (collectibles.filter fun x => !(collectibleMatches api x)) rest ↔ _
    rw [ih]
    constructor
    · rintro ⟨hmem, hall⟩
      rcases List.mem_filter.mp hmem with ⟨hc, hb⟩
      refine ⟨hc, fun a ha => ?_⟩
      rcases List.mem_cons.mp ha with rfl | ha
      · simpa using hb
      · exact hall a ha
    · rintro ⟨hc, hall⟩
      refine ⟨List.mem_filter.mpr ⟨hc, ?_⟩, fun a ha => hall a (List.mem_cons_of_mem _ ha)⟩
      simpa using hall api (List.mem_cons_self _ _)

theorem mem_collectibleAdds (ignoredCollectibles : List Collectible)
    (apis : List ApiCollectibleResponse) (op : StoreOp) :
    op ∈ collectibleAdds ignoredCollectibles apis ↔
      ∃ api ∈ apis, collectibleIgnored ignoredCollectibles api = none
        ∧ op = StoreOp.addCollectible api.address (jsNumber api.token_id)
            { description := api.description, image := api.image_original_url,
              name := api.name } true := by
  rw [collectibleAdds, List.mem_filterMap]
  constructor
  · rintro ⟨api, hmem, hf⟩
    by_cases h : (collectibleIgnored ignoredCollectibles api).isSome
    · simp [h] at hf
    · refine ⟨api, hmem, Option.not_isSome_iff_eq_none.mp h, ?_⟩
      simp only [h, if_false, Bool.false_eq_true, Option.some.injEq] at hf
      exact hf.symm
  · rintro ⟨api, hmem, hnone, rfl⟩
    exact ⟨api, hmem, by simp [hnone]⟩

theorem detectCollectibles_ok (config : DetectConfig)
    (collectibles ignoredCollectibles : List Collectible)
    (apis : List ApiCollectibleResponse)
    (hgate : isMainnet config = true) (haddr : ¬(config.selectedAddress = "")) :
    detectCollectibles config collectibles ignoredCollectibles (FetchOutcome.ok apis)
      = collectibleAdds ignoredCollectibles apis
        ++ (collectiblesToRemoveAfter collectibles apis).map
            (fun c => StoreOp.removeCollectible c.address c.tokenId) := by
  simp [detectCollectibles, hgate, haddr, getOwnerCollectibles]

theorem not_isAdd_and_isRemove (op : StoreOp) :
    ¬(op.isAdd = true ∧ op.isRemove = true) := by
  cases op <;> simp [StoreOp.isAdd, StoreOp.isRemove]

theorem detectCollectibles_split (config : DetectConfig)
    (collectibles ignoredCollectibles : List Collectible) (fetch : FetchOutcome) :
    ∃ adds removals,
      detectCollectibles config collectibles ignoredCollectibles fetch = adds ++ removals
        ∧ (∀ op ∈ adds, op.isAdd = true) ∧ (∀ op ∈ removals, op.isRemove = true) := by
  by_cases hgate : isMainnet config
  · by_cases haddr : config.selectedAddress = ""
    · exact ⟨[], [], by simp [detectCollectibles, hgate, haddr], by simp, by simp⟩
    · cases fetch with
      | fetchError =>
        refine ⟨[], (collectiblesToRemoveAfter collectibles []).map
          (fun c => StoreOp.removeCollectible c.address c.tokenId), ?_, by simp, ?_⟩
        · simp [detectCollectibles, hgate, haddr, getOwnerCollectibles, collectibleAdds]
        · intro op hop
          rcases List.mem_map.mp hop with ⟨c, _, rfl⟩
          rfl
      | parseError =>
        exact ⟨[], [], by simp [detectCollectibles, hgate, haddr, getOwnerCollectibles],
          by simp, by simp⟩
      | ok apis =>
        refine ⟨collectibleAdds ignoredCollectibles apis,
          (collectiblesToRemoveAfter collectibles apis).map
            (fun c => StoreOp.removeCollectible c.address c.tokenId),
          detectCollectibles_ok config collectibles ignoredCollectibles apis hgate haddr,
          ?_, ?_⟩
        · intro op hop
          rcases (mem_collectibleAdds ignoredCollectibles apis op).mp hop with ⟨api, _, _, rfl⟩
          rfl
        · intro op hop
          rcases List.mem_map.mp hop with ⟨c, _, rfl⟩
          rfl
  · exact ⟨[], [], by simp [detectCollectibles, hgate], by simp, by simp⟩

theorem detectTokensToAdd_go (contractMap : List (String × ContractEntry))
    (ignoredTokens : List Token) (balances : List (String × Nat)) (acc : List Token)
    (hreg : ∀ p ∈ balances, (mapLookup contractMap p.1).isSome = true) :
    balances.foldl (detectTokensStep contractMap ignoredTokens) (some acc)
      = some (acc ++ stagedTokens contractMap ignoredTokens balances) := by
  induction balances generalizing acc with
  | nil => simp [stagedTokens]
  | cons p rest ih =>
    have hp := hreg p (List.mem_cons_self p rest)
    rcases Option.isSome_iff_exists.mp hp with ⟨entry, hentry⟩
    have hrest : ∀ q ∈ rest, (mapLookup contractMap q.1).isSome = true :=
      fun q hq => hreg q (List.mem_cons_of_mem _ hq)
    rw [List.foldl_cons]
    by_cases hig :
        (ignoredTokens.find? (fun token => decide (token.address = toChecksumAddress p.1))).isSome
    all_goals simp only [List.find?_isSome, decide_eq_true_eq] at hig
    · have hstep : detectTokensStep contractMap ignoredTokens (some acc) p = some acc := by
        simp only [detectTokensStep, find_length_guard]
        simp [hig]
      rw [hstep, ih acc hrest]
      simp [stagedTokens, hig]
    · have hstep : detectTokensStep contractMap ignoredTokens (some acc) p
          = some (acc ++ [{ address := p.1, symbol := entry.symbol, decimals := entry.decimals }]) := by
        simp only [detectTokensStep, find_length_guard]
        simp [hig, hentry]
      rw [hstep, ih _ hrest]
      simp [stagedTokens, hig, hentry]

theorem detectTokensToAdd_eq (contractMap : List (String × ContractEntry))
    (ignoredTokens : List Token) (balances : List (String × Nat))
    (hreg : ∀ p ∈ balances, (mapLookup contractMap p.1).isSome = true) :
    detectTokensToAdd contractMap ignoredTokens balances
      = some (stagedTokens contractMap ignoredTokens balances) := by
  rw [detectTokensToAdd, detectTokensToAdd_go contractMap ignoredTokens balances [] hreg]
  rfl

theorem storeAddToken_preserves (ts : List Token) (t : Token) (a : String)
    (h : ∃ u ∈ ts, u.address = a) : ∃ u ∈ storeAddToken ts t, u.address = a := by
  rcases h with ⟨u, hu, hua⟩
  unfold storeAddToken
  by_cases hany : ts.any (fun v => decide (v.address = t.address))
  · rw [if_pos hany]
    by_cases h2 : u.address = t.address
    · exact ⟨t, List.mem_map.mpr ⟨u, hu, by simp [h2]⟩, by rw [← h2, hua]⟩
    · exact ⟨u, List.mem_map.mpr ⟨u, hu, by simp [h2]⟩, hua⟩
  · rw [if_neg hany]
    exact ⟨u, List.mem_append.mpr (Or.inl hu), hua⟩

theorem storeAddTokens_preserves (new : List Token) (ts : List Token) (a : String)
    (h : ∃ u ∈ ts, u.address = a) : ∃ u ∈ new.foldl storeAddToken ts, u.address = a := by
  revert h
  induction new generalizing ts with
  | nil => intro h; simpa using h
  | cons t rest ih =>
    intro h
    rw [List.foldl_cons]
    exact ih _ (storeAddToken_preserves ts t a h)

theorem applyTokenOp_preserves (ts : List Token) (op : StoreOp) (a : String)
    (h : ∃ u ∈ ts, u.address = a) : ∃ u ∈ applyTokenOp ts op, u.address = a := by
  cases op with
  | addTokens new => exact storeAddTokens_preserves new ts a h
  | addCollectible address tokenId info detection => exact h
  | removeCollectible address tokenId => exact h

theorem applyTokenOps_preserves (tracked : List Token) (ops : List StoreOp) (a : String)
    (h : ∃ u ∈ tracked, u.address = a) :
    ∃ u ∈ applyTokenOps tracked ops, u.address = a := by
  induction ops generalizing tracked with
  | nil => simpa [applyTokenOps] using h
  | cons op rest ih =>
    rw [applyTokenOps, List.foldl_cons]
    exact ih _ (applyTokenOp_preserves tracked op a h)

theorem updateBalancesStep_eq (getBalance : String → Except String Int)
    (acc : List (String × Int) × List Token) (token : Token) :
    updateBalancesStep getBalance acc token
      = (objSet acc.1 token.address (fetchedBalance getBalance token.address),
         acc.2 ++ [tokenAfterFetch getBalance token]) := by
  cases h : getBalance token.address <;>
    simp [updateBalancesStep, fetchedBalance, tokenAfterFetch, h]

theorem updateBalances_tokens (getBalance : String → Except String Int)
    (tokens : List Token) (b0 : List (String × Int)) (t0 : List Token) :
    (tokens.foldl (updateBalancesStep getBalance) (b0, t0)).2
      = t0 ++ tokens.map (tokenAfterFetch getBalance) := by
  induction tokens generalizing b0 t0 with
  | nil => simp
  | cons t rest ih =>
    rw [List.foldl_cons, updateBalancesStep_eq, ih]
    simp

theorem updateBalances_lookup (getBalance : String → Except String Int)
    (tokens : List Token) (b0 : List (String × Int)) (t0 : List Token) (a : String) :
    jsLookup (tokens.foldl (updateBalancesStep getBalance) (b0, t0)).1 a
      = if tokens.any (fun t => decide (t.address = a))
        then some (fetchedBalance getBalance a) else jsLookup b0 a := by
  induction tokens generalizing b0 t0 with
  | nil => simp
  | cons t rest ih =>
    rw [List.foldl_cons, updateBalancesStep_eq, ih]
    by_cases h : t.address = a
    · subst h
      by_cases h2 : rest.any (fun u => decide (u.address = t.address)) <;>
        simp [h2, jsLookup_objSet_self]
    · have hne : a ≠ t.address := fun hc => h hc.symm
      simp [List.any_cons, h, jsLookup_objSet_ne _ _ _ _ hne]

theorem updateBalances_keys_nodup (getBalance : String → Except String Int)
    (tokens : List Token) (b0 : List (String × Int)) (t0 : List Token)
    (h : (b0.map Prod.fst).Nodup) :
    ((tokens.foldl (updateBalancesStep getBalance) (b0, t0)).1.map Prod.fst).Nodup := by
  induction tokens generalizing b0 t0 with
  | nil => simpa using h
  | cons t rest ih =>
    rw [List.foldl_cons, updateBalancesStep_eq]
    exact ih _ _ (objSet_keys_nodup _ _ _ h)

/-! Claim theorems. -/

/-- C1: code behavior at the failing input.  The claim states that when the
ownership fetch itself fails no tracked collectible is removed in that cycle;
in the code the `catch` in `getOwnerCollectibles` returns `[]`, so a
network/timeout failure is processed exactly like a successful empty
response: with one tracked, non-ignored collectible and a failing fetch, the
pass issues that collectible's removal — the identical trace to the
successful-empty run shown in the second conjunct. -/
theorem C1_fetch_failure_flushes_tracked :
    detectCollectibles mainnetConfig [{ address := "0XCD", tokenId := 9 }] []
        FetchOutcome.fetchError
      = [StoreOp.removeCollectible "0XCD" 9]
    ∧ detectCollectibles mainnetConfig [{ address := "0XCD", tokenId := 9 }] []
        (FetchOutcome.ok [])
      = [StoreOp.removeCollectible "0XCD" 9] := by decide

/-- C2, counterexample: in the claim's own scenario — tracked = {(0XAB, 5)},
ignore list empty, marketplace reporting contract `0xab` with token id "5" —
the pass does issue an `addCollectible` call for the already-tracked item,
because the per-item callback has no tracked-membership test; only the
"no remove" half of the scenario holds. -/
theorem C2_add_call_issued_for_tracked_item :
    detectCollectibles mainnetConfig [{ address := "0XAB", tokenId := 5 }] []
        (FetchOutcome.ok [apiAb5])
      = [StoreOp.addCollectible "0xab" (some 5)
          { description := "desc", image := "img", name := "Kitty" } true] := by decide

/-- C2, amended: for a marketplace response in which every tracked
collectible is still reported, the collectible pass issues exactly the
per-item `addCollectible` calls — one for every non-ignored reported item,
already-tracked items included — and no remove call; deduplication of the
re-issued adds is delegated to the store's `addCollectible`.  A second run
with an unchanged response therefore repeats the same add calls and still
issues no remove. -/
theorem C2_reported_items_readded_never_removed (config : DetectConfig)
    (tracked ignoredCollectibles : List Collectible) (apis : List ApiCollectibleResponse)
    (hgate : isMainnet config = true) (haddr : ¬(config.selectedAddress = ""))
    (hcover : ∀ c ∈ tracked, ∃ api ∈ apis, collectibleMatches api c = true) :
    detectCollectibles config tracked ignoredCollectibles (FetchOutcome.ok apis)
      = collectibleAdds ignoredCollectibles apis
    ∧ ∀ api ∈ apis, collectibleIgnored ignoredCollectibles api = none →
        StoreOp.addCollectible api.address (jsNumber api.token_id)
          { description := api.description, image := api.image_original_url,
            name := api.name } true
          ∈ detectCollectibles config tracked ignoredCollectibles (FetchOutcome.ok apis) := by
  have hempty : collectiblesToRemoveAfter tracked apis = [] := by
    rw [List.eq_nil_iff_forall_not_mem]
    intro c hc
    rcases (mem_collectiblesToRemoveAfter tracked apis c).mp hc with ⟨hmem, hall⟩
    rcases hcover c hmem with ⟨api, hapi, hmatch⟩
    rw [hall api hapi] at hmatch
    cases hmatch
  have hmain := detectCollectibles_ok config tracked ignoredCollectibles apis hgate haddr
  rw [hmain, hempty]
  simp only [List.map_nil, List.append_nil]
  refine ⟨trivial, ?_⟩
  intro api hapi hnone
  exact (mem_collectibleAdds ignoredCollectibles apis _).mpr ⟨api, hapi, hnone, rfl⟩

/-- C2 witness: the amended statement evaluated at the claim's scenario. -/
theorem C2_reported_items_readded_never_removed_witness :
    detectCollectibles mainnetConfig [{ address := "0XAB", tokenId := 5 }] []
        (FetchOutcome.ok [apiAb5])
      = collectibleAdds [] [apiAb5]
    ∧ ∀ api ∈ [apiAb5], collectibleIgnored [] api = none →
        StoreOp.addCollectible api.address (jsNumber api.token_id)
          { description := api.description, image := api.image_original_url,
            name := api.name } true
          ∈ detectCollectibles mainnetConfig [{ address := "0XAB", tokenId := 5 }] []
              (FetchOutcome.ok [apiAb5]) :=
  C2_reported_items_readded_never_removed mainnetConfig
    [{ address := "0XAB", tokenId := 5 }] [] [apiAb5] (by decide) (by decide) (by decide)

/-- C3, counterexample: the staging loop has no balance-value test — with the
registry containing `0xcd`, no ignore entries, and the fetched balance map
reporting balance `0` for `0xcd`, a Token for `0xcd` is staged and the
batched `addTokens` call is issued, refuting "an address whose reported
balance is zero is never added". -/
theorem C3_zero_balance_token_added :
    detectTokens [("0xcd", { erc20 := true, symbol := "CD", decimals := 18 })]
        mainnetConfig [] (fun _ _ => Except.ok [("0xcd", 0)])
      = [StoreOp.addTokens [{ address := "0xcd", symbol := "CD", decimals := 18 }]] := by
  decide

/-- C3, amended: when every fetched balance key resolves in the contract
registry, the staging loop completes and a Token record is staged for address
`a` exactly when `a` is a key of the fetched balance map (whatever the
reported value, zero included) and no ignore-list entry's stored address
equals the checksummed `a`.  The claim's nonzero-balance condition is not
enforced by the pass; it can only come from the balance fetcher outside it. -/
theorem C3_staged_iff_fetched_key_not_ignored
    (contractMap : List (String × ContractEntry)) (ignoredTokens : List Token)
    (balances : List (String × Nat)) (a : String)
    (hreg : ∀ p ∈ balances, (mapLookup contractMap p.1).isSome = true) :
    ∃ ts, detectTokensToAdd contractMap ignoredTokens balances = some ts
      ∧ ((∃ t ∈ ts, t.address = a) ↔
          ((∃ v, (a, v) ∈ balances)
            ∧ ignoredTokens.find?
                (fun token => decide (token.address = toChecksumAddress a)) = none)) := by
  refine ⟨stagedTokens contractMap ignoredTokens balances,
    detectTokensToAdd_eq contractMap ignoredTokens balances hreg, ?_⟩
  constructor
  · rintro ⟨t, ht, rfl⟩
    rcases List.mem_filterMap.mp ht with ⟨p, hmem, hf⟩
    by_cases hig : (ignoredTokens.find?
        (fun token => decide (token.address = toChecksumAddress p.1))).isSome
    · rw [if_pos hig] at hf
      cases hf
    · rw [if_neg hig] at hf
      rcases Option.map_eq_some'.mp hf with ⟨entry, hentry, heq⟩
      have haddr : t.address = p.1 := by rw [← heq]
      rw [haddr]
      exact ⟨⟨p.2, by simpa using hmem⟩, Option.not_isSome_iff_eq_none.mp hig⟩
  · rintro ⟨⟨v, hv⟩, hnone⟩
    have hsome := hreg (a, v) hv
    rcases Option.isSome_iff_exists.mp hsome with ⟨entry, hentry⟩
    refine ⟨{ address := a, symbol := entry.symbol, decimals := entry.decimals }, ?_, rfl⟩
    exact List.mem_filterMap.mpr ⟨(a, v), hv, by simp [hnone, hentry]⟩

/-- C3 witness: the amended statement evaluated on a one-entry registry and a
one-key balance map. -/
theorem C3_staged_iff_fetched_key_not_ignored_witness :
    ∃ ts, detectTokensToAdd [("0xcd", { erc20 := true, symbol := "CD", decimals := 18 })]
        [] [("0xcd", 7)] = some ts
      ∧ ((∃ t ∈ ts, t.address = "0xcd") ↔
          ((∃ v, ("0xcd", v) ∈ [("0xcd", 7)])
            ∧ List.find?
                (fun token : Token => decide (token.address = toChecksumAddress "0xcd")) []
                = none)) :=
  C3_staged_iff_fetched_key_not_ignored
    [("0xcd", { erc20 := true, symbol := "CD", decimals := 18 })] [] [("0xcd", 7)] "0xcd"
    (by decide)

/-- C4, counterexample: with (0XAB, 5) both tracked and ignored and the
marketplace reporting it, the removal-candidate filter runs for the ignored
item too — it sits outside the `if (!ignored)` guard — so the pair is removed
from the removal-candidate set, which ends empty where the claim requires the
pair to remain in it; the item is (correctly) not added, so the pass issues
no operation at all. -/
theorem C4_ignored_item_dropped_from_candidates :
    collectibleIgnored [{ address := "0XAB", tokenId := 5 }] apiAb5
        = some { address := "0XAB", tokenId := 5 }
    ∧ collectiblesToRemoveAfter [{ address := "0XAB", tokenId := 5 }] [apiAb5] = []
    ∧ detectCollectibles mainnetConfig [{ address := "0XAB", tokenId := 5 }]
        [{ address := "0XAB", tokenId := 5 }] (FetchOutcome.ok [apiAb5]) = [] := by decide

/-- C4, amended: a reported item whose pair is in the collectible ignore-list
is never added (every emitted `addCollectible` carries a non-ignored pair),
but — contrary to the claim — the pair of every reported item, ignored or
not, is removed from the removal-candidate set; the claim's consequence
stands: an ignored untracked pair is never re-added. -/
theorem C4_ignored_never_added_but_candidates_filtered
    (tracked ignoredCollectibles : List Collectible)
    (apis : List ApiCollectibleResponse) (api : ApiCollectibleResponse)
    (hmem : api ∈ apis) :
    (∀ op ∈ collectibleAdds ignoredCollectibles apis, ∀ a tid info d,
        op = StoreOp.addCollectible a tid info d →
        collectibleIgnoredPair ignoredCollectibles a tid = none)
    ∧ ∀ c ∈ collectiblesToRemoveAfter tracked apis, collectibleMatches api c = false := by
  constructor
  · intro op hop a tid info d heq
    rcases (mem_collectibleAdds ignoredCollectibles apis op).mp hop with ⟨api2, _, hnone, rfl⟩
    cases heq
    exact hnone
  · intro c hc
    exact ((mem_collectiblesToRemoveAfter tracked apis c).mp hc).2 api hmem

/-- C4 witness: the amended statement evaluated with (0XAB, 5) tracked,
ignored and reported. -/
theorem C4_ignored_never_added_but_candidates_filtered_witness :
    (∀ op ∈ collectibleAdds [{ address := "0XAB", tokenId := 5 }] [apiAb5], ∀ a tid info d,
        op = StoreOp.addCollectible a tid info d →
        collectibleIgnoredPair [{ address := "0XAB", tokenId := 5 }] a tid = none)
    ∧ ∀ c ∈ collectiblesToRemoveAfter [{ address := "0XAB", tokenId := 5 }] [apiAb5],
        collectibleMatches apiAb5 c = false :=
  C4_ignored_never_added_but_candidates_filtered
    [{ address := "0XAB", tokenId := 5 }] [{ address := "0XAB", tokenId := 5 }]
    [apiAb5] apiAb5 (by decide)

/-- C5: code behavior at the failing input.  The claim says every identity
comparison of the two passes checksum-normalizes both sides.  First conjunct:
the candidate-exclusion test `!(address in tokensAddresses)` is a JS
array-index lookup, not an address comparison — a registry address equal,
character for character, to a tracked token's address is still kept as a
candidate.  Second conjunct: the token-pass ignore probe compares the stored
address against the checksummed fetched key, normalizing one side only — an
ignore entry stored as `0xcd` fails to match the fetched key `0xcd` and the
ignored token is staged anyway. -/
theorem C5_identity_comparisons_not_normalized :
    tokensToDetect [("0xcd", { erc20 := true, symbol := "CD", decimals := 18 })]
        [{ address := "0xcd" }] = ["0xcd"]
    ∧ detectTokensToAdd [("0xcd", { erc20 := true, symbol := "CD", decimals := 18 })]
        [{ address := "0xcd" }] [("0xcd", 100)]
        = some [{ address := "0xcd", symbol := "CD", decimals := 18 }] := by decide

/-- C6, counterexample: an account-change event to a new address arriving
while a timer is pending (handle set) produces exactly one detection cycle
and nothing else — the pending timer is not cancelled and no new timer is
armed, refuting the claim for the account-change case. -/
theorem C6_account_change_leaves_timer_untouched :
    (accountChangeSched { handle := true, interval := 180000, selectedAddress := "0xold" }
        "0xnew").2 = [SchedAction.detectCycle]
    ∧ SchedAction.clearTimer
        ∉ (accountChangeSched { handle := true, interval := 180000, selectedAddress := "0xold" }
            "0xnew").2
    ∧ ∀ i : Nat, SchedAction.armTimer i
        ∉ (accountChangeSched { handle := true, interval := 180000, selectedAddress := "0xold" }
            "0xnew").2 := by
  refine ⟨by decide, by decide, ?_⟩
  intro i hi
  rw [show (accountChangeSched
      { handle := true, interval := 180000, selectedAddress := "0xold" } "0xnew").2
      = [SchedAction.detectCycle] from by decide] at hi
  simp at hi

/-- C6, amended: on start — and on every `poll` call — the scheduler clears
the pending timer when one exists, runs one detection cycle, and then always
arms a new timer for the configured interval, in that order and regardless
of the rest of the state; an account-change event to a different address
runs one detection cycle only, touching no timer, and is a no-op for an
unchanged address. -/
theorem C6_poll_rearms_account_change_only_runs_cycle
    (s : SchedState) (intervalArg : Option Nat) (addr : String) :
    (pollSched s intervalArg).2
      = (if s.handle then [SchedAction.clearTimer] else [])
        ++ [SchedAction.detectCycle,
            SchedAction.armTimer (pollSched s intervalArg).1.interval]
    ∧ (pollSched s intervalArg).1.handle = true
    ∧ (accountChangeSched s addr).2
        = if addr = s.selectedAddress then [] else [SchedAction.detectCycle] := by
  refine ⟨?_, ?_, ?_⟩
  · rcases intervalArg with _ | i
    · simp [pollSched]
    · by_cases hi : i = 0 <;> simp [pollSched, hi]
  · rcases intervalArg with _ | i
    · simp [pollSched]
    · by_cases hi : i = 0 <;> simp [pollSched, hi]
  · by_cases h : addr = s.selectedAddress <;> simp [accountChangeSched, h]

/-- C7: within one collectible pass, every `removeCollectible` of the
tombstone step appears in the operation trace strictly after every
`addCollectible` of that pass — the `Promise.all` barrier: if position `i` of
the trace holds an addition and position `j` a removal, then `i < j`, for any
configuration, tracked set, ignore list and fetch outcome. -/
theorem C7_removals_after_all_additions (config : DetectConfig)
    (collectibles ignoredCollectibles : List Collectible) (fetch : FetchOutcome)
    (ops : List StoreOp)
    (hops : detectCollectibles config collectibles ignoredCollectibles fetch = ops)
    (i j : Nat) (hi : i < ops.length) (hj : j < ops.length)
    (hadd : (ops.get ⟨i, hi⟩).isAdd = true)
    (hrem : (ops.get ⟨j, hj⟩).isRemove = true) : i < j := by
  rcases detectCollectibles_split config collectibles ignoredCollectibles fetch
    with ⟨adds, removals, hsplit, hA, hR⟩
  have hEq : ops = adds ++ removals := hops.symm.trans hsplit
  subst hEq
  have hiA : i < adds.length := by
    by_contra hcon
    push_neg at hcon
    have hmem : (adds ++ removals).get ⟨i, hi⟩ ∈ removals := by
      rw [List.get_eq_getElem, List.getElem_append_right hcon]
      exact List.getElem_mem _
    exact not_isAdd_and_isRemove _ ⟨hadd, hR _ hmem⟩
  have hjA : adds.length ≤ j := by
    by_contra hcon
    push_neg at hcon
    have hmem : (adds ++ removals).get ⟨j, hj⟩ ∈ adds := by
      rw [List.get_eq_getElem, List.getElem_append_left hcon]
      exact List.getElem_mem _
    exact not_isAdd_and_isRemove _ ⟨hA _ hmem, hrem⟩
  omega

/-- C7 witness: a run with one addition (untracked reported item) and one
removal (tracked unreported item) — the addition sits at position 0, the
removal at position 1. -/
theorem C7_removals_after_all_additions_witness : (0 : Nat) < 1 :=
  C7_removals_after_all_additions mainnetConfig [{ address := "0XEF", tokenId := 3 }] []
    (FetchOutcome.ok [apiAb5])
    [StoreOp.addCollectible "0xab" (some 5)
        { description := "desc", image := "img", name := "Kitty" } true,
      StoreOp.removeCollectible "0XEF" 3]
    (by decide) 0 1 (by decide) (by decide) (by decide) (by decide)

/-- C8: the token pass never removes anything from the asset store: its trace
contains no `removeCollectible` — the only removal mutator this controller
holds — and is either empty or exactly one batched `addTokens` call; hence,
under the spec-modelled store semantics `applyTokenOps`, every tracked
token's address is still tracked after the pass, whatever balances (zero
included) the fetch reported. -/
theorem C8_token_pass_never_removes (contractMap : List (String × ContractEntry))
    (config : DetectConfig) (ignoredTokens : List Token)
    (getBalances : String → List String → Except String (List (String × Nat))) :
    (∀ op ∈ detectTokens contractMap config ignoredTokens getBalances, op.isRemove = false)
    ∧ (detectTokens contractMap config ignoredTokens getBalances = []
        ∨ ∃ ts, detectTokens contractMap config ignoredTokens getBalances
            = [StoreOp.addTokens ts])
    ∧ ∀ tracked : List Token, ∀ t ∈ tracked,
        ∃ u ∈ applyTokenOps tracked (detectTokens contractMap config ignoredTokens getBalances),
          u.address = t.address := by
  have hshape : detectTokens contractMap config ignoredTokens getBalances = []
      ∨ ∃ ts, detectTokens contractMap config ignoredTokens getBalances
          = [StoreOp.addTokens ts] := by
    unfold detectTokens
    by_cases hg : isMainnet config
    · by_cases ha : config.selectedAddress = ""
      · simp [hg, ha]
      · cases hb : getBalances config.selectedAddress (tokensToDetect contractMap config.tokens) with
        | error e => simp [hg, ha, hb]
        | ok balances =>
          cases hd : detectTokensToAdd contractMap ignoredTokens balances with
          | none => simp [hg, ha, hb, hd]
          | some ts =>
            by_cases hl : ts.length ≠ 0
            · exact Or.inr ⟨ts, by simp [hg, ha, hb, hd, hl]⟩
            · exact Or.inl (by simp [hg, ha, hb, hd, hl])
    · exact Or.inl (by simp [hg])
  refine ⟨?_, hshape, ?_⟩
  · intro op hop
    rcases hshape with he | ⟨ts, he⟩
    · rw [he] at hop
      cases hop
    · rw [he] at hop
      rcases List.mem_singleton.mp hop with rfl
      rfl
  · intro tracked t ht
    exact applyTokenOps_preserves tracked _ t.address ⟨t, ht, rfl⟩

/-- C9: code behavior at the failing input.  With a single child controller
named "AssetsController" holding snapshot "sA", the constructor's
`Object.entries` runs over the controller ARRAY, keying the initial composed
state by the index string "0": a lookup under the controller's name yields
nothing; when the child then publishes "s2", the subscription writes it under
the NAME key, leaving the stale index-keyed entry in place instead of
replacing that child's entry. -/
theorem C9_initial_state_keyed_by_index :
    composableInitialState
        [({ name := "AssetsController", state := "sA" } : ChildController String)]
      = [("0", "sA")]
    ∧ jsLookup (composableInitialState
        [({ name := "AssetsController", state := "sA" } : ChildController String)])
        "AssetsController" = none
    ∧ composableOnChildChange
        (composableInitialState
          [({ name := "AssetsController", state := "sA" } : ChildController String)])
        "AssetsController" "s2"
      = [("0", "sA"), ("AssetsController", "s2")] := by decide

/-- C10: with the controller enabled, `updateBalances` publishes a balances
object with exactly one entry per configured token address — holding the
fetched balance (and `balanceError` cleared to null) for a token whose fetch
succeeds, and balance `0` (and `balanceError` set to the thrown error) for a
token whose fetch throws — so one token's failure never prevents the
remaining tokens from being updated. -/
theorem C10_per_token_failure_isolated (disabled : Bool) (tokens : List Token)
    (getBalance : String → Except String Int) (h : disabled = false) :
    ∃ bal toks,
      updateBalances disabled tokens getBalance = some (bal, toks)
      ∧ (∀ a, jsLookup bal a
            = if tokens.any (fun t => decide (t.address = a))
              then some (fetchedBalance getBalance a) else none)
      ∧ (bal.map Prod.fst).Nodup
      ∧ toks = tokens.map (tokenAfterFetch getBalance) := by
  subst h
  refine ⟨(tokens.foldl (updateBalancesStep getBalance) ([], [])).1,
    (tokens.foldl (updateBalancesStep getBalance) ([], [])).2, ?_, ?_, ?_, ?_⟩
  · simp [updateBalances]
  · intro a
    rw [updateBalances_lookup]
    simp [jsLookup]
  · exact updateBalances_keys_nodup getBalance tokens [] [] (by simp)
  · rw [updateBalances_tokens]
    simp

/-- C10 witness: two configured tokens, the first with a throwing fetch and
the second fetching 42. -/
theorem C10_per_token_failure_isolated_witness :
    ∃ bal toks,
      updateBalances false [{ address := "0x1" }, { address := "0x2" }]
          (fun a => if a = "0x1" then Except.error "boom" else Except.ok 42)
        = some (bal, toks)
      ∧ (∀ a, jsLookup bal a
            = if [({ address := "0x1" } : Token), { address := "0x2" }].any
                  (fun t => decide (t.address = a))
              then some (fetchedBalance
                  (fun a => if a = "0x1" then Except.error "boom" else Except.ok 42) a)
              else none)
      ∧ (bal.map Prod.fst).Nodup
      ∧ toks = [({ address := "0x1" } : Token), { address := "0x2" }].map
          (tokenAfterFetch (fun a => if a = "0x1" then Except.error "boom" else Except.ok 42)) :=
  C10_per_token_failure_isolated false [{ address := "0x1" }, { address := "0x2" }]
    (fun a => if a = "0x1" then Except.error "boom" else Except.ok 42) rfl

end Gaba
